import Mathlib

/-!
Verification development for the EventTrackPro webhook pipeline
(`backend/src/routes.ts` and the database storage layer).

The TypeScript route handlers are shallowly embedded as pure Lean
functions.  JavaScript dynamic values are modelled by `JsValue`,
JavaScript objects (used as string-keyed maps) by association lists
`List (String × β)` with JS assignment semantics (`jsSet`), the network
by an oracle `net : String → Option Nat` mapping a URL to the HTTP
status of a POST against it (`none` = network error), and
`crypto.createHmac("sha256", ...)` by an uninterpreted function
parameter `hmac : String → String → String` (key, message ↦ hex digest).
-/

set_option autoImplicit false

namespace EventTrackPro

/-- Dynamically typed JavaScript value, as stored in a registration's
`formData` map and in webhook payload objects. -/
inductive JsValue where
  | vStr (s : String)
  | vNum (n : Int)
  | vBool (b : Bool)
  | vNull
  deriving DecidableEq, Repr

open JsValue

/-- JavaScript `String(value)` coercion for the values we model. -/
def jsToString : JsValue → String
  | .vStr s => s
  | .vNum n => toString n
  | .vBool b => cond b "true" "false"
  | .vNull => "null"

/-- `typeof value === 'string'`. -/
def jsIsString : JsValue → Bool
  | .vStr _ => true
  | _ => false

/-- JavaScript truthiness of an optional string (`undefined`/`null`/`""`
are falsy): models conditions such as `if (webhook.secret)`. -/
def strTruthy : Option String → Bool
  | none => false
  | some s => s != ""

/-- JavaScript `a || b` where `a` is an optional string and `b` a string:
yields `a`'s value when it is truthy (present and non-empty), else `b`. -/
def jsOrStr (a : Option String) (b : String) : String :=
  match a with
  | some s => if s = "" then b else s
  | none => b

/-- JavaScript object assignment `obj[k] = v` on a string-keyed map
(JS objects have unique keys): overwrite the binding in place when the
key is present, otherwise append the binding at the end. -/
def jsSet {β : Type} (m : List (String × β)) (k : String) (v : β) :
    List (String × β) :=
  match m with
  | [] => [(k, v)]
  | p :: t => if p.1 = k then (k, v) :: t else p :: jsSet t k v

/-- JavaScript property read `obj[k]` on a string-keyed map. -/
def getKey {β : Type} (m : List (String × β)) (k : String) : Option β :=
  match m with
  | [] => none
  | p :: t => if p.1 = k then some p.2 else getKey t k

/-- Word character of the JavaScript regex class `\w`: ASCII letters,
digits and underscore. -/
def isWordChar (c : Char) : Bool :=
  c.isAlphanum || c == '_'

/-- Reinsert the UUID dashes into a run of exactly 32 word characters
(the replacement template of the regex
`/(\w{8})(\w{4})(\w{4})(\w{4})(\w{12})/` → groups of 8-4-4-4-12). -/
def insertDashes (cs : List Char) : List Char :=
  cs.take 8 ++ '-' :: ((cs.drop 8).take 4) ++ '-' :: ((cs.drop 12).take 4)
    ++ '-' :: ((cs.drop 16).take 4) ++ '-' :: cs.drop 20

/-- One `String.prototype.replace` pass with the non-global regex
`/(\w{8})(\w{4})(\w{4})(\w{4})(\w{12})/`: the leftmost run of 32
consecutive word characters, if any, has dashes reinserted at offsets
8, 12, 16, 20; the rest of the string is unchanged. -/
def cleanChars : List Char → List Char
  | [] => []
  | c :: rest =>
    if 32 ≤ (c :: rest).length && ((c :: rest).take 32).all isWordChar then
      insertDashes ((c :: rest).take 32) ++ (c :: rest).drop 32
    else
      c :: cleanChars rest

/-- `key.replace(/(\w{8})(\w{4})(\w{4})(\w{4})(\w{12})/, "$1-$2-$3-$4-$5")`:
normalize a form-field id by reinserting UUID separators. -/
def cleanKey (s : String) : String :=
  ⟨cleanChars s.data⟩

/-- The static field-id → label table `FORM_FIELD_LABELS` of
`routes.ts` (the manual re-trigger route holds an identical copy). -/
def FORM_FIELD_LABELS : List (String × String) :=
  [("4a2b99cf-7244-4e93-8f29-2e02c6845960", "First Name"),
   ("50592742-6389-40ea-8a85-c4291e99f545", "Last Name"),
   ("5a2aa210-8c3d-485e-878b-0c8dceb0f9bc", "Email"),
   ("7a006b3a-6516-4981-a333-e92b98970f29", "Phone"),
   ("156e810e-d049-4f37-98a9-3763abdb7386", "Tell me a bit about yourself"),
   ("7d903ce3-3998-4c37-94f9-8d0257b8d279", "What do you do for work?"),
   ("4c72cf83-105b-4cbd-bc9b-dd4f099493a9", "Are you familiar with Notion?"),
   ("7d8d5ace-d95e-4dab-bb71-ac8bf272c572", "What is your main currency"),
   ("41bf2047-cd0b-41f2-ad7c-4d7bb462ab44", "Select event")]

/-- The label lookup chain of the payload loops:
`FORM_FIELD_LABELS[cleanedKey] || FORM_FIELD_LABELS[key] || key`. -/
def resolveFieldLabel (key : String) : String :=
  jsOrStr (FORM_FIELD_LABELS.lookup (cleanKey key))
    (jsOrStr (FORM_FIELD_LABELS.lookup key) key)

/-- Remove all dashes from a field id, producing the 32-contiguous-character
form in which ids arrive inside stored form data. -/
def stripDashes (s : String) : String :=
  ⟨s.data.filter (fun c => c != '-')⟩

/-- Does `needle` occur as a contiguous run inside the character list? -/
def hasSubChars (needle : List Char) : List Char → Bool
  | [] => needle.isEmpty
  | c :: t => needle.isPrefixOf (c :: t) || hasSubChars needle t

/-- JavaScript `hay.includes(needle)` on strings. -/
def strIncludes (hay needle : String) : Bool :=
  hasSubChars needle.data hay.data

/-- JavaScript `s.toLowerCase()` for the ASCII strings handled here
(character-list implementation, so that it evaluates by kernel
reduction). -/
def toLowerStr (s : String) : String :=
  ⟨s.data.map Char.toLower⟩

/-- JavaScript whitespace class `\s` (restricted to the ASCII whitespace
characters that can occur in the labels handled here). -/
def jsIsSpace (c : Char) : Bool :=
  c == ' ' || c == '\t' || c == '\n' || c == '\r' ||
    c == Char.ofNat 11 || c == Char.ofNat 12

/-- `replace(/\s+/g, '_')`: every maximal run of whitespace becomes one
underscore.  The flag records whether the previous character was
whitespace (so a continuing run emits nothing). -/
def squashSpaces : Bool → List Char → List Char
  | _, [] => []
  | prevWs, c :: rest =>
    if jsIsSpace c then
      if prevWs then squashSpaces true rest
      else '_' :: squashSpaces true rest
    else
      c :: squashSpaces false rest

/-- Character allowed by `replace(/[^a-z0-9_]/g, '')` (applied after
lowercasing). -/
def isSnakeChar (c : Char) : Bool :=
  (('a' ≤ c && c ≤ 'z') : Bool) || c.isDigit || c == '_'

/-- The snake_case conversion of a field label used for payload keys:
`label.toLowerCase().replace(/\s+/g, '_').replace(/[^a-z0-9_]/g, '')`. -/
def snakeCase (label : String) : String :=
  ⟨(squashSpaces false (toLowerStr label).data).filter isSnakeChar⟩

/-- JavaScript `s.split(' ')` at character level: split on every single
space, keeping empty segments (`"".split(' ') = [""]`). -/
def splitSpace : List Char → List (List Char)
  | [] => [[]]
  | c :: t =>
    if c = ' ' then [] :: splitSpace t
    else
      match splitSpace t with
      | [] => [[c]]
      | p :: ps => (c :: p) :: ps

/-- JavaScript `parts.join(' ')` at character level. -/
def joinSpace : List (List Char) → List Char
  | [] => []
  | [p] => p
  | p :: ps => p ++ ' ' :: joinSpace ps

/-- Accumulator of the first scan over submitted form data that guesses
first name, last name and email from key names. -/
structure CommonFields where
  firstName : String
  lastName : String
  email : String
  deriving DecidableEq, Repr

/-- One iteration of the key-heuristic scan of the registration routes
(`Object.entries(formData).forEach` at routes.ts lines 568–597 and
814–843): match the lowercased key against first/fname, last/lname,
exact name/fullname (with first-whitespace splitting of the value when
no first or last name was seen yet), and email. -/
def commonFieldStep (cf : CommonFields) (kv : String × JsValue) : CommonFields :=
  let k := kv.1
  let v := kv.2
  let keyLower := toLowerStr k
  if k = "eventName" then cf
  else if strIncludes keyLower "first" || strIncludes keyLower "fname" then
    { cf with firstName := jsToString v }
  else if strIncludes keyLower "last" || strIncludes keyLower "lname" then
    { cf with lastName := jsToString v }
  else if keyLower = "name" || keyLower = "fullname" then
    if cf.firstName = "" && cf.lastName = "" && jsIsString v then
      let s := jsToString v
      let nameParts := splitSpace s.data
      if 1 < nameParts.length then
        { cf with firstName := ⟨nameParts.headD []⟩,
                  lastName := ⟨joinSpace (nameParts.drop 1)⟩ }
      else
        { cf with firstName := s }
    else cf
  else if strIncludes keyLower "email" then
    { cf with email := jsToString v }
  else cf

/-- The full first scan over submitted form data. -/
def extractCommonFields (formData : List (String × JsValue)) : CommonFields :=
  formData.foldl commonFieldStep ⟨"", "", ""⟩

/-! ## Data model (shared/schema.ts) -/

/-- An `events` row.  Nullable columns are `Option`s. -/
structure Event where
  id : Nat
  title : String
  description : Option String
  date : String
  startTime : Option String
  endTime : Option String
  location : Option String
  capacity : Nat
  createdAt : String
  deriving DecidableEq, Repr

/-- A `registrations` row. -/
structure Registration where
  id : Nat
  eventId : Nat
  formData : List (String × JsValue)
  status : String
  webhookStatus : String
  attended : Bool
  attendanceNotes : Option String
  createdAt : String
  deriving DecidableEq, Repr

/-- A `webhooks` row: subscription target, optional signing secret,
subscribed event-type set and active flag. -/
structure Webhook where
  id : Nat
  name : String
  url : String
  secret : Option String
  events : List String
  active : Bool
  createdAt : String
  deriving DecidableEq, Repr

/-! ## JSON serialization (JSON.stringify on flat payload objects) -/

/-- Escaping of one character inside a JSON string literal. -/
def escapeJsonChar (c : Char) : List Char :=
  if c = '"' then ['\\', '"']
  else if c = '\\' then ['\\', '\\']
  else if c = '\n' then ['\\', 'n']
  else if c = '\r' then ['\\', 'r']
  else if c = '\t' then ['\\', 't']
  else [c]

/-- Escape a string for inclusion in a JSON document. -/
def jsonEscape (s : String) : String :=
  ⟨(s.data.map escapeJsonChar).flatten⟩

/-- Serialize one payload value. -/
def serializeJsValue : JsValue → String
  | .vStr s => "\"" ++ jsonEscape s ++ "\""
  | .vNum n => toString n
  | .vBool b => cond b "true" "false"
  | .vNull => "null"

/-- `JSON.stringify(payload)` for a flat string-keyed payload object. -/
def serializePayload (m : List (String × JsValue)) : String :=
  "\x7b" ++ String.intercalate ","
      (m.map (fun p => "\"" ++ jsonEscape p.1 ++ "\":" ++ serializeJsValue p.2))
    ++ "\x7d"

/-! ## Webhook registry lookup and dispatcher (routes.ts `triggerWebhooks`,
`DatabaseStorage.getWebhooksByEvent`) -/

/-- `getWebhooksByEvent`: the rows with `active = true` whose JSON
`events` array contains the event type (`@>` containment of a singleton
array is membership). -/
def getWebhooksByEvent (whs : List Webhook) (eventType : String) : List Webhook :=
  whs.filter (fun w => w.active && w.events.contains eventType)

/-- Outcome of `fetch(url, ...)` against the network oracle:
`response.ok`, i.e. a 2xx status; a network error (`none`) is caught and
counts as failure. -/
def httpOk (net : String → Option Nat) (url : String) : Bool :=
  match net url with
  | some status => 200 ≤ status && status < 300
  | none => false

/-- Delivery headers: `{'Content-Type': 'application/json'}` plus, when
the subscription's secret is truthy (present and non-empty),
`X-Webhook-Signature` = HMAC-SHA256 over the serialized body keyed by
the secret (`hmac` stands for the hex digest of `crypto.createHmac`). -/
def buildWebhookHeaders (hmac : String → String → String)
    (secret : Option String) (body : String) : List (String × String) :=
  let headers : List (String × String) := [("Content-Type", "application/json")]
  match secret with
  | some s => if s = "" then headers else jsSet headers "X-Webhook-Signature" (hmac s body)
  | none => headers

/-- One outbound POST performed by the dispatcher or the test route. -/
structure Delivery where
  target : Webhook
  headers : List (String × String)
  body : String
  succeeded : Bool
  deriving DecidableEq, Repr

/-- One fan-out delivery of `triggerWebhooks`: build headers, redundantly
re-set `Content-Type` (the source does so a second time), POST the
serialized payload, record whether the response was 2xx.  A thrown
error is caught inside the per-webhook closure, so the result is a
plain success flag. -/
def deliverTo (net : String → Option Nat) (hmac : String → String → String)
    (body : String) (w : Webhook) : Delivery :=
  let headers := buildWebhookHeaders hmac w.secret body
  let headers := jsSet headers "Content-Type" "application/json"
  { target := w, headers := headers, body := body, succeeded := httpOk net w.url }

/-- `triggerWebhooks(eventType, payload)`: resolve active subscribers,
return early with `false` when there are none, otherwise deliver to all
of them independently and report whether at least one fulfilled promise
returned `true` (every per-delivery error is caught, so no promise
rejects). Returns the list of performed deliveries and the aggregate
flag. -/
def dispatchWebhooks (net : String → Option Nat) (hmac : String → String → String)
    (whs : List Webhook) (eventType : String) (body : String) :
    List Delivery × Bool :=
  let subscribers := getWebhooksByEvent whs eventType
  if subscribers.isEmpty then ([], false)
  else
    let deliveries := subscribers.map (deliverTo net hmac body)
    (deliveries, deliveries.any (fun d => d.succeeded))

/-- The aggregate boolean alone, as the route handlers consume it. -/
def triggerWebhooks (net : String → Option Nat) (hmac : String → String → String)
    (whs : List Webhook) (eventType : String) (body : String) : Bool :=
  (dispatchWebhooks net hmac whs eventType body).2

/-- Response of `POST /api/webhooks/trigger` after the fan-out: HTTP 200
either way, distinguished only by the message. -/
def triggerRouteResponse (success : Bool) : Nat × String :=
  if success then (200, "Webhook triggered successfully")
  else (200, "No webhooks were triggered")

/-- `POST /api/webhooks/test`: single-target delivery to one named
webhook, refused (`none`) when the webhook is inactive; otherwise the
same header construction over the serialized test payload (this route
does not re-set `Content-Type`). -/
def testWebhookSend (net : String → Option Nat) (hmac : String → String → String)
    (w : Webhook) (payload : List (String × JsValue)) : Option Delivery :=
  if !w.active then none
  else
    let body := serializePayload payload
    let headers := buildWebhookHeaders hmac w.secret body
    some { target := w, headers := headers, body := body, succeeded := httpOk net w.url }

/-! ## Payload normalizer (registration routes) -/

open JsValue in
/-- Base payload of the automatic `POST /api/registrations` dispatch
(routes.ts lines 610–630): event fields with JS `||` defaults over a
possibly absent event record, the heuristically extracted contact
fields, and registration metadata. -/
def autoBasePayload (evOpt : Option Event) (reg : Registration) :
    List (String × JsValue) :=
  let cf := extractCommonFields reg.formData
  [("event_title", vStr (jsOrStr (evOpt.map Event.title) "Unknown Event")),
   ("event_description", vStr (jsOrStr (evOpt.bind Event.description) "")),
   ("event_date", vStr (jsOrStr (evOpt.map Event.date) "")),
   ("event_location", vStr (jsOrStr (evOpt.bind Event.location) "")),
   ("event_start_time", vStr (jsOrStr (evOpt.bind Event.startTime) "")),
   ("event_end_time", vStr (jsOrStr (evOpt.bind Event.endTime) "")),
   ("event_capacity", vNum (match evOpt with | some e => (e.capacity : Int) | none => 0)),
   ("first_name", vStr cf.firstName),
   ("last_name", vStr cf.lastName),
   ("email", vStr cf.email),
   ("registration_id", vNum reg.id),
   ("registration_status", vStr reg.status),
   ("webhook_status", vStr (jsOrStr (some reg.webhookStatus) "pending")),
   ("submitted_at", vStr reg.createdAt)]

open JsValue in
/-- One iteration of the form-data loop of the automatic dispatch
(routes.ts lines 635–669): resolve the label, add the snake_case key
with the raw value, add the `form_`-prefixed debug key with the raw
value, and override `first_name`/`last_name`/`email` when the label is
one of the three known contact labels. -/
def autoPayloadStep (payload : List (String × JsValue)) (kv : String × JsValue) :
    List (String × JsValue) :=
  let fieldLabel := resolveFieldLabel kv.1
  let snakeCaseLabel := snakeCase fieldLabel
  let p1 := jsSet payload snakeCaseLabel kv.2
  let p2 := jsSet p1 ("form_" ++ kv.1) kv.2
  if fieldLabel = "First Name" then jsSet p2 "first_name" (vStr (jsToString kv.2))
  else if fieldLabel = "Last Name" then jsSet p2 "last_name" (vStr (jsToString kv.2))
  else if fieldLabel = "Email" then jsSet p2 "email" (vStr (jsToString kv.2))
  else p2

/-- Full normalized payload of the automatic registration-created
dispatch. -/
def buildAutoPayload (evOpt : Option Event) (reg : Registration) :
    List (String × JsValue) :=
  reg.formData.foldl autoPayloadStep (autoBasePayload evOpt reg)

open JsValue in
/-- Base payload of the manual `POST /api/registrations/:id/webhook`
dispatch (routes.ts lines 859–878): the event here is known to exist
(a missing event 404s earlier), `manually_triggered`/`triggered_at`
metadata is added, and — unlike the automatic route — the heuristically
extracted `first_name`/`last_name`/`email` are computed but never
placed in the base payload.  `capacity || 0` is the identity on `Nat`. -/
def manualBasePayload (ev : Event) (reg : Registration) (now : String) :
    List (String × JsValue) :=
  [("event_title", vStr (jsOrStr (some ev.title) "Unknown Event")),
   ("event_description", vStr (jsOrStr ev.description "")),
   ("event_date", vStr (jsOrStr (some ev.date) "")),
   ("event_location", vStr (jsOrStr ev.location "")),
   ("event_start_time", vStr (jsOrStr ev.startTime "")),
   ("event_end_time", vStr (jsOrStr ev.endTime "")),
   ("event_capacity", vNum (ev.capacity : Int)),
   ("manually_triggered", vBool true),
   ("triggered_at", vStr now),
   ("registration_id", vNum reg.id),
   ("registration_status", vStr reg.status),
   ("webhook_status", vStr (jsOrStr (some reg.webhookStatus) "pending")),
   ("submitted_at", vStr reg.createdAt)]

open JsValue in
/-- One iteration of the form-data loop of the manual re-trigger route
(routes.ts lines 885–916): identical to `autoPayloadStep` except that
no `form_`-prefixed debug key is written. -/
def manualPayloadStep (payload : List (String × JsValue)) (kv : String × JsValue) :
    List (String × JsValue) :=
  let fieldLabel := resolveFieldLabel kv.1
  let snakeCaseLabel := snakeCase fieldLabel
  let p1 := jsSet payload snakeCaseLabel kv.2
  if fieldLabel = "First Name" then jsSet p1 "first_name" (vStr (jsToString kv.2))
  else if fieldLabel = "Last Name" then jsSet p1 "last_name" (vStr (jsToString kv.2))
  else if fieldLabel = "Email" then jsSet p1 "email" (vStr (jsToString kv.2))
  else p1

/-- Full normalized payload of the manual re-trigger dispatch. -/
def buildManualPayload (ev : Event) (reg : Registration) (now : String) :
    List (String × JsValue) :=
  reg.formData.foldl manualPayloadStep (manualBasePayload ev reg now)

/-- The payload keys one form-data entry with key `k` can write in
`autoPayloadStep`. -/
def autoStepKeys (k : String) : List String :=
  let fieldLabel := resolveFieldLabel k
  snakeCase fieldLabel :: ("form_" ++ k) ::
    (if fieldLabel = "First Name" then ["first_name"]
     else if fieldLabel = "Last Name" then ["last_name"]
     else if fieldLabel = "Email" then ["email"] else [])

/-- The payload keys one form-data entry with key `k` can write in
`manualPayloadStep`. -/
def manualStepKeys (k : String) : List String :=
  let fieldLabel := resolveFieldLabel k
  snakeCase fieldLabel ::
    (if fieldLabel = "First Name" then ["first_name"]
     else if fieldLabel = "Last Name" then ["last_name"]
     else if fieldLabel = "Email" then ["email"] else [])

/-! ## Application state and the registration routes -/

/-- Request body of `POST /api/registrations` after schema validation
(`insertRegistrationSchema`); optional columns may be omitted. -/
structure InsertRegistration where
  eventId : Nat
  formData : List (String × JsValue)
  status : Option String
  webhookStatus : Option String
  attended : Option Bool
  attendanceNotes : Option String
  deriving DecidableEq, Repr

/-- The relevant slice of the persistent store. -/
structure AppState where
  events : List Event
  registrations : List Registration
  webhooks : List Webhook
  nextRegistrationId : Nat
  deriving DecidableEq, Repr

/-- `storage.getEvent(id)`. -/
def getEvent (st : AppState) (id : Nat) : Option Event :=
  st.events.find? (fun e => e.id == id)

/-- Row lookup used by `storage.getRegistration(id)`. -/
def findReg (l : List Registration) (id : Nat) : Option Registration :=
  match l with
  | [] => none
  | r :: t => if r.id = id then some r else findReg t id

/-- `storage.getRegistration(id)`. -/
def getRegistration (st : AppState) (id : Nat) : Option Registration :=
  findReg st.registrations id

/-- `storage.getEventRegistrationCount(eventId)`: `count(*)` over the
registrations of the event. -/
def getEventRegistrationCount (st : AppState) (eventId : Nat) : Nat :=
  (st.registrations.filter (fun r => r.eventId == eventId)).length

/-- `storage.createRegistration`: fill JS `||` defaults for the optional
columns, assign the next serial id, append the row. -/
def createRegistration (st : AppState) (ins : InsertRegistration)
    (createdAt : String) : Registration × AppState :=
  let reg : Registration :=
    { id := st.nextRegistrationId
      eventId := ins.eventId
      formData := ins.formData
      status := jsOrStr ins.status "confirmed"
      webhookStatus := jsOrStr ins.webhookStatus "not_sent"
      attended := ins.attended.getD false
      attendanceNotes :=
        match ins.attendanceNotes with
        | some s => if s = "" then none else some s
        | none => none
      createdAt := createdAt }
  (reg, { st with registrations := st.registrations ++ [reg],
                  nextRegistrationId := st.nextRegistrationId + 1 })

/-- Row update used by
`storage.updateRegistration(id, { webhookStatus })`. -/
def setRegStatus (l : List Registration) (id : Nat) (status : String) :
    List Registration :=
  l.map (fun r => if r.id = id then { r with webhookStatus := status } else r)

/-- `storage.updateRegistration(id, { webhookStatus: status })` on the
state. -/
def setWebhookStatus (st : AppState) (id : Nat) (status : String) : AppState :=
  { st with registrations := setRegStatus st.registrations id status }

/-- Response of `POST /api/registrations`. -/
inductive RegResponse where
  | notFound (msg : String)
  | badRequest (msg : String)
  | created (reg : Registration)
  deriving DecidableEq, Repr

/-- The `POST /api/registrations` handler after body validation:
existence check, capacity check, row creation, payload normalization,
registration.created fan-out, and the best-effort webhook-status update.
Returns the HTTP response, the final state, and the deliveries
performed. -/
def postRegistration (net : String → Option Nat) (hmac : String → String → String)
    (st : AppState) (ins : InsertRegistration) (now : String) :
    RegResponse × AppState × List Delivery :=
  match getEvent st ins.eventId with
  | none => (.notFound "Event not found", st, [])
  | some eventInfo =>
    if eventInfo.capacity ≤ getEventRegistrationCount st ins.eventId then
      (.badRequest "Event is at full capacity", st, [])
    else
      let regAndSt := createRegistration st ins now
      let registration := regAndSt.1
      let st1 := regAndSt.2
      let eventDataForWebhook := getEvent st1 registration.eventId
      let webhookPayload := buildAutoPayload eventDataForWebhook registration
      let body := serializePayload webhookPayload
      let dispatched := dispatchWebhooks net hmac st1.webhooks "registration.created" body
      let st2 := if dispatched.2 then setWebhookStatus st1 registration.id "sent" else st1
      (.created registration, st2, dispatched.1)

/-- Response of `POST /api/registrations/:id/webhook`. -/
inductive ManualWebhookResponse where
  | notFound (msg : String)
  | ok (message : String) (webhookStatus : String)
  deriving DecidableEq, Repr

/-- The `POST /api/registrations/:id/webhook` handler: 404 on missing
registration or missing associated event; otherwise normalize with the
manual payload builder, fan out, and persist `webhookStatus = "sent"`
only on success. -/
def postRegistrationWebhook (net : String → Option Nat)
    (hmac : String → String → String) (st : AppState) (id : Nat) (now : String) :
    ManualWebhookResponse × AppState × List Delivery :=
  match getRegistration st id with
  | none => (.notFound "Registration not found", st, [])
  | some registration =>
    match getEvent st registration.eventId with
    | none => (.notFound "Associated event not found", st, [])
    | some eventDetails =>
      let webhookPayload := buildManualPayload eventDetails registration now
      let body := serializePayload webhookPayload
      let dispatched := dispatchWebhooks net hmac st.webhooks "registration.created" body
      if dispatched.2 then
        (.ok "Webhook triggered successfully" "sent",
         setWebhookStatus st id "sent", dispatched.1)
      else
        (.ok "No webhooks were triggered" registration.webhookStatus, st, dispatched.1)

/-! ## Concrete fixtures used by scenario conjuncts and witnesses -/

/-- A subscription subscribed only to `event.created`, with the secret
of the spec's scenario. -/
def eventOnlyWebhook : Webhook :=
  { id := 1, name := "zapier", url := "https://hooks.example/catch", secret := some "s3cr3t",
    events := ["event.created"], active := true, createdAt := "2025-01-01" }

/-- A network oracle on which every POST fails. -/
def netDown : String → Option Nat :=
  fun _ => none

/-- A network oracle on which every POST returns 200. -/
def netUp : String → Option Nat :=
  fun _ => some 200

/-- A concrete stand-in for the HMAC-SHA256 hex digest. -/
def hmacStub : String → String → String :=
  fun k m => k ++ ":" ++ m

/-- The event of the capacity scenario (`{title:"Launch", capacity:2}`). -/
def evLaunch : Event :=
  { id := 1, title := "Launch", description := some "Product launch", date := "2025-06-01",
    startTime := none, endTime := none, location := some "HQ", capacity := 2,
    createdAt := "2025-01-01" }

/-- A registration against `evLaunch` with the given id and form data. -/
def mkReg (id : Nat) (formData : List (String × JsValue)) : Registration :=
  { id := id, eventId := 1, formData := formData, status := "confirmed",
    webhookStatus := "not_sent", attended := false, attendanceNotes := none,
    createdAt := "2025-06-01T10:00:00Z" }

/-- The registration of the normalization scenario: form data keyed by
the table ids of "First Name" and "Email". -/
def regAda : Registration :=
  mkReg 7 [("4a2b99cf-7244-4e93-8f29-2e02c6845960", JsValue.vStr "Ada"),
           ("5a2aa210-8c3d-485e-878b-0c8dceb0f9bc", JsValue.vStr "ada@x.com")]

/-- A registration whose form data has one entry keyed by the table id
of "Phone". -/
def regPhone : Registration :=
  mkReg 8 [("7a006b3a-6516-4981-a333-e92b98970f29", JsValue.vStr "555-0100")]

/-- A registration with empty form data. -/
def regEmptyForm : Registration :=
  mkReg 9 []

/-- A request body for a registration against event 1 with empty form
data and all optional fields omitted. -/
def insEmpty : InsertRegistration :=
  { eventId := 1, formData := [], status := none, webhookStatus := none,
    attended := none, attendanceNotes := none }

/-- A store holding `evLaunch` and no registrations or webhooks. -/
def stEmpty : AppState :=
  { events := [evLaunch], registrations := [], webhooks := [], nextRegistrationId := 1 }

/-- A store holding `evLaunch` already at its capacity of 2. -/
def stFull : AppState :=
  { events := [evLaunch], registrations := [mkReg 1 [], mkReg 2 []], webhooks := [],
    nextRegistrationId := 3 }

/-- A store holding `evLaunch`, one registration, and one always-up
subscriber of `registration.created`. -/
def stWithSubscriber : AppState :=
  { events := [evLaunch], registrations := [regPhone],
    webhooks := [{ id := 2, name := "w", url := "https://hooks.example/r",
                   secret := none, events := ["registration.created"], active := true,
                   createdAt := "2025-01-01" }],
    nextRegistrationId := 10 }

/-- The payload keys of the event-descriptive fields. -/
def eventFieldKeys : List String :=
  ["event_title", "event_description", "event_date", "event_location",
   "event_start_time", "event_end_time", "event_capacity"]

/-- The delivery performed against `eventOnlyWebhook` over the up
network with body `"x"`. -/
def deliveryToEventHook : Delivery :=
  deliverTo netUp hmacStub "x" eventOnlyWebhook

/-- The delivery the test route performs against `eventOnlyWebhook`
with an empty payload. -/
def testDeliveryExample : Delivery :=
  { target := eventOnlyWebhook,
    headers := buildWebhookHeaders hmacStub (some "s3cr3t") (serializePayload []),
    body := serializePayload [], succeeded := true }

/-! ## Lemmas about JS object assignment and key lookup -/

/-- Reading the key just assigned yields the assigned value. -/
theorem getKey_jsSet_self {β : Type} (m : List (String × β)) (k : String) (v : β) :
    getKey (jsSet m k v) k = some v := by
  induction m with
  | nil => simp [jsSet, getKey]
  | cons p t ih =>
    by_cases hp : p.1 = k
    · simp [jsSet, getKey, hp]
    · simp [jsSet, getKey, hp, ih]

/-- Assigning one key leaves reads of any other key unchanged. -/
theorem getKey_jsSet_ne {β : Type} (m : List (String × β)) (k k' : String) (v : β)
    (h : k' ≠ k) : getKey (jsSet m k v) k' = getKey m k' := by
  induction m with
  | nil => simp [jsSet, getKey, Ne.symm h]
  | cons p t ih =>
    by_cases hp : p.1 = k
    · have hp' : ¬k = k' := fun e => h (e ▸ rfl)
      simp [jsSet, getKey, hp, hp', hp ▸ hp']
    · by_cases hq : p.1 = k'
      · simp [jsSet, getKey, hp, hq, h]
      · simp [jsSet, getKey, hp, hq, ih]

/-! ## Lemmas about the payload form-data loops -/

/-- A `form_`-prefixed debug key is never one of the three explicit
contact keys. -/
theorem form_key_ne_contact (k : String) :
    "form_" ++ k ≠ "first_name" ∧ "form_" ++ k ≠ "last_name" ∧
      "form_" ++ k ≠ "email" := by
  refine ⟨fun h => ?_, fun h => ?_, fun h => ?_⟩ <;>
    · have hd := congrArg String.data h
      rw [String.data_append] at hd
      simp at hd

/-- The automatic form-data loop iteration always leaves the
`form_`-prefixed debug key of the processed entry bound to the raw
value. -/
theorem getKey_autoPayloadStep_form (p : List (String × JsValue))
    (kv : String × JsValue) :
    getKey (autoPayloadStep p kv) ("form_" ++ kv.1) = some kv.2 := by
  obtain ⟨h1, h2, h3⟩ := form_key_ne_contact kv.1
  unfold autoPayloadStep
  dsimp only
  split
  · rw [getKey_jsSet_ne _ _ _ _ h1, getKey_jsSet_self]
  · split
    · rw [getKey_jsSet_ne _ _ _ _ h2, getKey_jsSet_self]
    · split
      · rw [getKey_jsSet_ne _ _ _ _ h3, getKey_jsSet_self]
      · rw [getKey_jsSet_self]

/-- An automatic loop iteration does not move payload keys outside its
write set `autoStepKeys`. -/
theorem getKey_autoPayloadStep_not_touched (p : List (String × JsValue))
    (kv : String × JsValue) (K : String) (h : K ∉ autoStepKeys kv.1) :
    getKey (autoPayloadStep p kv) K = getKey p K := by
  unfold autoStepKeys at h
  simp only [List.mem_cons, not_or] at h
  obtain ⟨hsnake, hform, hrest⟩ := h
  unfold autoPayloadStep
  dsimp only
  split
  · next hl =>
    rw [hl] at hrest
    simp at hrest
    rw [getKey_jsSet_ne _ _ _ _ hrest, getKey_jsSet_ne _ _ _ _ hform,
      getKey_jsSet_ne _ _ _ _ hsnake]
  · split
    · next hl1 hl =>
      rw [hl] at hrest
      simp [hl1] at hrest
      rw [getKey_jsSet_ne _ _ _ _ hrest, getKey_jsSet_ne _ _ _ _ hform,
        getKey_jsSet_ne _ _ _ _ hsnake]
    · split
      · next hl1 hl2 hl =>
        rw [hl] at hrest
        simp [hl1, hl2] at hrest
        rw [getKey_jsSet_ne _ _ _ _ hrest, getKey_jsSet_ne _ _ _ _ hform,
          getKey_jsSet_ne _ _ _ _ hsnake]
      · rw [getKey_jsSet_ne _ _ _ _ hform, getKey_jsSet_ne _ _ _ _ hsnake]

/-- Folding the automatic loop over entries none of which can write `K`
leaves `K`'s binding unchanged. -/
theorem getKey_foldl_auto_not_touched (l : List (String × JsValue))
    (p : List (String × JsValue)) (K : String)
    (h : ∀ kv ∈ l, K ∉ autoStepKeys kv.1) :
    getKey (l.foldl autoPayloadStep p) K = getKey p K := by
  induction l generalizing p with
  | nil => rfl
  | cons kv t ih =>
    rw [List.foldl_cons, ih _ (fun x hx => h x (List.mem_cons_of_mem _ hx)),
      getKey_autoPayloadStep_not_touched _ _ _ (h kv (List.mem_cons_self _ _))]

/-- A manual loop iteration does not move payload keys outside its write
set `manualStepKeys`. -/
theorem getKey_manualPayloadStep_not_touched (p : List (String × JsValue))
    (kv : String × JsValue) (K : String) (h : K ∉ manualStepKeys kv.1) :
    getKey (manualPayloadStep p kv) K = getKey p K := by
  unfold manualStepKeys at h
  simp only [List.mem_cons, not_or] at h
  obtain ⟨hsnake, hrest⟩ := h
  unfold manualPayloadStep
  dsimp only
  split
  · next hl =>
    rw [hl] at hrest
    simp at hrest
    rw [getKey_jsSet_ne _ _ _ _ hrest, getKey_jsSet_ne _ _ _ _ hsnake]
  · split
    · next hl1 hl =>
      rw [hl] at hrest
      simp [hl1] at hrest
      rw [getKey_jsSet_ne _ _ _ _ hrest, getKey_jsSet_ne _ _ _ _ hsnake]
    · split
      · next hl1 hl2 hl =>
        rw [hl] at hrest
        simp [hl1, hl2] at hrest
        rw [getKey_jsSet_ne _ _ _ _ hrest, getKey_jsSet_ne _ _ _ _ hsnake]
      · rw [getKey_jsSet_ne _ _ _ _ hsnake]

/-- Folding the manual loop over entries none of which can write `K`
leaves `K`'s binding unchanged. -/
theorem getKey_foldl_manual_not_touched (l : List (String × JsValue))
    (p : List (String × JsValue)) (K : String)
    (h : ∀ kv ∈ l, K ∉ manualStepKeys kv.1) :
    getKey (l.foldl manualPayloadStep p) K = getKey p K := by
  induction l generalizing p with
  | nil => rfl
  | cons kv t ih =>
    rw [List.foldl_cons, ih _ (fun x hx => h x (List.mem_cons_of_mem _ hx)),
      getKey_manualPayloadStep_not_touched _ _ _ (h kv (List.mem_cons_self _ _))]

/-- The automatic loop iteration leaves the snake_case label key of the
processed entry bound to the raw value, provided the snake key is not
the entry's own debug key and, when the label is one of the contact
labels (so the explicit contact override rewrites the same key), the
raw value is a string (`String(value)` is then the identity). -/
theorem getKey_autoPayloadStep_snake (p : List (String × JsValue))
    (kv : String × JsValue)
    (hform : snakeCase (resolveFieldLabel kv.1) ≠ "form_" ++ kv.1)
    (hval : resolveFieldLabel kv.1 = "First Name" ∨
        resolveFieldLabel kv.1 = "Last Name" ∨ resolveFieldLabel kv.1 = "Email" →
        ∃ s, kv.2 = vStr s) :
    getKey (autoPayloadStep p kv) (snakeCase (resolveFieldLabel kv.1)) = some kv.2 := by
  unfold autoPayloadStep
  dsimp only
  split
  · next hl =>
    obtain ⟨s, hs⟩ := hval (Or.inl hl)
    rw [hl]
    have hk : snakeCase "First Name" = "first_name" := by decide
    rw [hk, getKey_jsSet_self, hs]
    simp [jsToString]
  · split
    · next hl1 hl =>
      obtain ⟨s, hs⟩ := hval (Or.inr (Or.inl hl))
      rw [hl]
      have hk : snakeCase "Last Name" = "last_name" := by decide
      rw [hk, getKey_jsSet_self, hs]
      simp [jsToString]
    · split
      · next hl1 hl2 hl =>
        obtain ⟨s, hs⟩ := hval (Or.inr (Or.inr hl))
        rw [hl]
        have hk : snakeCase "Email" = "email" := by decide
        rw [hk, getKey_jsSet_self, hs]
        simp [jsToString]
      · rw [getKey_jsSet_ne _ _ _ _ hform, getKey_jsSet_self]

/-- Same statement for the manual loop iteration, which writes no debug
key. -/
theorem getKey_manualPayloadStep_snake (p : List (String × JsValue))
    (kv : String × JsValue)
    (hval : resolveFieldLabel kv.1 = "First Name" ∨
        resolveFieldLabel kv.1 = "Last Name" ∨ resolveFieldLabel kv.1 = "Email" →
        ∃ s, kv.2 = vStr s) :
    getKey (manualPayloadStep p kv) (snakeCase (resolveFieldLabel kv.1)) = some kv.2 := by
  unfold manualPayloadStep
  dsimp only
  split
  · next hl =>
    obtain ⟨s, hs⟩ := hval (Or.inl hl)
    rw [hl]
    have hk : snakeCase "First Name" = "first_name" := by decide
    rw [hk, getKey_jsSet_self, hs]
    simp [jsToString]
  · split
    · next hl1 hl =>
      obtain ⟨s, hs⟩ := hval (Or.inr (Or.inl hl))
      rw [hl]
      have hk : snakeCase "Last Name" = "last_name" := by decide
      rw [hk, getKey_jsSet_self, hs]
      simp [jsToString]
    · split
      · next hl1 hl2 hl =>
        obtain ⟨s, hs⟩ := hval (Or.inr (Or.inr hl))
        rw [hl]
        have hk : snakeCase "Email" = "email" := by decide
        rw [hk, getKey_jsSet_self, hs]
        simp [jsToString]
      · rw [getKey_jsSet_self]

/-! ## Lemmas about space splitting and joining -/

/-- `split(' ')` always yields at least one segment. -/
theorem splitSpace_ne_nil (l : List Char) : splitSpace l ≠ [] := by
  cases l with
  | nil => simp [splitSpace]
  | cons c t =>
    by_cases hc : c = ' '
    · simp [splitSpace, hc]
    · simp only [splitSpace, if_neg hc]
      cases h : splitSpace t <;> simp

/-- Splitting a string whose head part is space-free around an explicit
space peels off exactly that part. -/
theorem splitSpace_append (a b : List Char) (h : ' ' ∉ a) :
    splitSpace (a ++ ' ' :: b) = a :: splitSpace b := by
  induction a with
  | nil => simp [splitSpace]
  | cons c a ih =>
    have hc : ¬c = ' ' := fun e => h (by rw [e]; exact List.mem_cons_self _ _)
    simp only [List.cons_append, splitSpace, if_neg hc, List.append_eq,
      ih (fun hx => h (List.mem_cons_of_mem _ hx))]

/-- `join(' ')` inverts `split(' ')`. -/
theorem joinSpace_splitSpace (l : List Char) : joinSpace (splitSpace l) = l := by
  induction l with
  | nil => rfl
  | cons c t ih =>
    obtain ⟨p, ps, hps⟩ : ∃ p ps, splitSpace t = p :: ps := by
      cases h : splitSpace t with
      | nil => exact absurd h (splitSpace_ne_nil t)
      | cons p ps => exact ⟨p, ps, rfl⟩
    rw [hps] at ih
    by_cases hc : c = ' '
    · subst hc
      simp only [splitSpace, if_pos rfl, hps]
      show ' ' :: joinSpace (p :: ps) = ' ' :: t
      rw [ih]
    · simp only [splitSpace, if_neg hc, hps]
      cases ps with
      | nil =>
        show c :: joinSpace [p] = c :: t
        rw [ih]
      | cons q qs =>
        show (c :: p) ++ ' ' :: joinSpace (q :: qs) = c :: t
        rw [List.cons_append]
        have hrest : p ++ ' ' :: joinSpace (q :: qs) = t := ih
        rw [hrest]

/-- A key is absent from a map whose bindings all carry other keys. -/
theorem getKey_eq_none {β : Type} (m : List (String × β)) (K : String)
    (h : ∀ p ∈ m, p.1 ≠ K) : getKey m K = none := by
  induction m with
  | nil => rfl
  | cons p t ih =>
    simp [getKey, h p (List.mem_cons_self _ _),
      ih (fun x hx => h x (List.mem_cons_of_mem _ hx))]

/-- A string whose first character is not `'f'` is no `form_`-prefixed
key. -/
theorem ne_form_of_head (K k : String) (c : Char)
    (h1 : K.data.head? = some c) (h2 : c ≠ 'f') : K ≠ "form_" ++ k := by
  intro e
  rw [e, String.data_append] at h1
  simp at h1
  exact h2 h1.symm

/-- The manual base payload binds no `form_`-prefixed key. -/
theorem getKey_manualBasePayload_form (ev : Event) (reg : Registration)
    (now k : String) :
    getKey (manualBasePayload ev reg now) ("form_" ++ k) = none := by
  apply getKey_eq_none
  intro p hp
  simp only [manualBasePayload, List.mem_cons, List.not_mem_nil, or_false] at hp
  rcases hp with rfl | rfl | rfl | rfl | rfl | rfl | rfl | rfl | rfl | rfl | rfl | rfl | rfl <;>
    exact ne_form_of_head _ k _ rfl (by decide)

/-! ## Lemmas about the dispatcher and the stored registrations -/

/-- The aggregate flag of a dispatch is exactly "some performed delivery
succeeded". -/
theorem dispatch_snd_eq_any (net : String → Option Nat)
    (hmac : String → String → String) (whs : List Webhook)
    (eventType body : String) :
    (dispatchWebhooks net hmac whs eventType body).2 =
      (dispatchWebhooks net hmac whs eventType body).1.any (fun d => d.succeeded) := by
  unfold dispatchWebhooks
  dsimp only
  split <;> rfl

/-- Updating one registration's webhook status rewrites exactly that row. -/
theorem findReg_setRegStatus (l : List Registration) (id : Nat) (s : String) :
    findReg (setRegStatus l id s) id =
      (findReg l id).map (fun r => { r with webhookStatus := s }) := by
  induction l with
  | nil => rfl
  | cons r t ih =>
    by_cases hr : r.id = id
    · simp [findReg, setRegStatus, hr]
    · simp only [setRegStatus, List.map_cons, if_neg hr] at ih ⊢
      simp [findReg, hr, ih]

/-- A freshly appended registration with an unused id is found by its id. -/
theorem findReg_append_fresh (l : List Registration) (reg : Registration)
    (id : Nat) (hid : reg.id = id) (h : ∀ r ∈ l, r.id ≠ id) :
    findReg (l ++ [reg]) id = some reg := by
  induction l with
  | nil => simp [findReg, hid]
  | cons r t ih =>
    have hr : r.id ≠ id := h r (List.mem_cons_self _ _)
    simpa [findReg, hr] using ih (fun x hx => h x (List.mem_cons_of_mem _ hx))

/-- Signature lookup on the built delivery headers, characterised by
the subscription's secret. -/
theorem getKey_buildWebhookHeaders (hmac : String → String → String)
    (secret : Option String) (body : String) (v : String) :
    getKey (buildWebhookHeaders hmac secret body) "X-Webhook-Signature" = some v ↔
      ∃ s, secret = some s ∧ s ≠ "" ∧ v = hmac s body := by
  have hct : ("Content-Type" : String) ≠ "X-Webhook-Signature" := by decide
  unfold buildWebhookHeaders
  match secret with
  | none => simp [getKey, hct]
  | some s =>
    by_cases hs : s = ""
    · simp [hs, getKey, hct]
    · simp [hs, jsSet, getKey, hct, eq_comm]

/-! ## Claim theorems -/

/-- C1: the fan-out dispatcher's aggregate result is true iff at least
one individual delivery succeeded (got a 2xx response); with zero
matching subscribers it performs no delivery and reports `false` (and
the trigger route then answers HTTP 200 with a "no webhooks" message,
not an error); and each delivery's outcome depends only on its own
target, so one failure cannot affect a sibling delivery. -/
theorem c1_dispatch_at_least_one_semantics (net : String → Option Nat)
    (hmac : String → String → String) (whs : List Webhook)
    (eventType body : String) :
    ((dispatchWebhooks net hmac whs eventType body).2 = true ↔
      ∃ d ∈ (dispatchWebhooks net hmac whs eventType body).1, d.succeeded = true)
    ∧ (getWebhooksByEvent whs eventType = [] →
        dispatchWebhooks net hmac whs eventType body = ([], false) ∧
        triggerRouteResponse (triggerWebhooks net hmac whs eventType body) =
          (200, "No webhooks were triggered"))
    ∧ (∀ d ∈ (dispatchWebhooks net hmac whs eventType body).1,
        d.succeeded = httpOk net d.target.url) := by
  refine ⟨?_, ?_, ?_⟩
  · rw [dispatch_snd_eq_any, List.any_eq_true]
  · intro h
    have : dispatchWebhooks net hmac whs eventType body = ([], false) := by
      unfold dispatchWebhooks
      simp [h]
    refine ⟨this, ?_⟩
    unfold triggerWebhooks
    rw [this]
    rfl
  · intro d hd
    unfold dispatchWebhooks at hd
    dsimp only at hd
    split at hd
    · simp at hd
    · simp only [List.mem_map] at hd
      obtain ⟨w, _, rfl⟩ := hd
      rfl

/-- C4: the registry lookup returns exactly the stored webhooks that
are active and subscribed to the event type; in particular a webhook
subscribed only to `event.created` receives zero deliveries when
`registration.created` is dispatched. -/
theorem c4_active_subscriber_lookup :
    (∀ (whs : List Webhook) (eventType : String) (w : Webhook),
      w ∈ getWebhooksByEvent whs eventType ↔
        w ∈ whs ∧ w.active = true ∧ eventType ∈ w.events)
    ∧ (∀ (net : String → Option Nat) (hmac : String → String → String) (body : String),
      dispatchWebhooks net hmac [eventOnlyWebhook] "registration.created" body =
        ([], false)) := by
  constructor
  · intro whs eventType w
    simp [getWebhooksByEvent, List.mem_filter, List.contains_iff_exists_mem_beq]
  · intro net hmac body
    rfl

/-- C5: field-label resolution is total by construction, falls back to
the original key when neither the separator-normalized form nor the key
itself is in the static table, and never turns a non-empty key into an
empty label. -/
theorem c5_label_resolution_total_fallback (key : String) :
    (FORM_FIELD_LABELS.lookup (cleanKey key) = none →
      FORM_FIELD_LABELS.lookup key = none →
      resolveFieldLabel key = key)
    ∧ (resolveFieldLabel key = "" → key = "") := by
  constructor
  · intro h1 h2
    unfold resolveFieldLabel
    rw [h1, h2]
    rfl
  · unfold resolveFieldLabel jsOrStr
    cases FORM_FIELD_LABELS.lookup (cleanKey key) with
    | none =>
      cases FORM_FIELD_LABELS.lookup key with
      | none => exact fun h => h
      | some l =>
        by_cases hl : l = ""
        · simp [hl]
        · simp [hl]
    | some l =>
      by_cases hl : l = ""
      · simp [hl]
        cases FORM_FIELD_LABELS.lookup key with
        | none => exact fun h => h
        | some l2 =>
          by_cases hl2 : l2 = ""
          · simp [hl2]
          · simp [hl2]
      · simp [hl]

/-- C6: every field id present in the static label table resolves to its
label both in its dashed 8-4-4-4-12 form (as stored in the table) and in
its dash-free 32-character form (as it arrives in submitted form data). -/
theorem c6_dashed_and_dashfree_agree :
    ∀ p ∈ FORM_FIELD_LABELS,
      resolveFieldLabel p.1 = p.2 ∧ resolveFieldLabel (stripDashes p.1) = p.2 := by
  decide

/-- Witness for C6 at the first table entry. -/
theorem c6_witness :
    resolveFieldLabel "4a2b99cf-7244-4e93-8f29-2e02c6845960" = "First Name" ∧
      resolveFieldLabel (stripDashes "4a2b99cf-7244-4e93-8f29-2e02c6845960") = "First Name" :=
  c6_dashed_and_dashfree_agree
    ("4a2b99cf-7244-4e93-8f29-2e02c6845960", "First Name") (by decide)

/-- Witness for C5 at a key absent from the static table. -/
theorem c5_witness :
    resolveFieldLabel "customField" = "customField" :=
  (c5_label_resolution_total_fallback "customField").1 (by decide) (by decide)

/-- Witness for C1: the empty-subscriber case over a down network, plus
the per-delivery independence conjunct at a concrete delivery. -/
theorem c1_witness :
    (dispatchWebhooks netDown hmacStub [] "registration.created" "" = ([], false) ∧
      triggerRouteResponse (triggerWebhooks netDown hmacStub [] "registration.created" "") =
        (200, "No webhooks were triggered")) ∧
    deliveryToEventHook.succeeded = httpOk netUp deliveryToEventHook.target.url :=
  ⟨(c1_dispatch_at_least_one_semantics netDown hmacStub [] "registration.created" "").2.1 rfl,
   (c1_dispatch_at_least_one_semantics netUp hmacStub [eventOnlyWebhook] "event.created" "x").2.2
     deliveryToEventHook (by decide)⟩

/-- Witness for C4 at `eventOnlyWebhook`. -/
theorem c4_witness :
    (eventOnlyWebhook ∈ getWebhooksByEvent [eventOnlyWebhook] "event.created") ∧
      dispatchWebhooks netUp hmacStub [eventOnlyWebhook] "registration.created" "b" =
        ([], false) :=
  ⟨(c4_active_subscriber_lookup.1 [eventOnlyWebhook] "event.created" eventOnlyWebhook).mpr
      (by decide),
   c4_active_subscriber_lookup.2 netUp hmacStub "b"⟩

/-- C3: in the fan-out and in the single-target test route alike, the
request body is the exact serialized payload, and the
`X-Webhook-Signature` header is bound to `v` iff the target carries a
non-empty secret `s` with `v` = HMAC-SHA256 hex digest of that exact
body keyed by `s`. -/
theorem c3_signature_iff_nonempty_secret :
    (∀ (net : String → Option Nat) (hmac : String → String → String)
        (whs : List Webhook) (eventType : String) (payload : List (String × JsValue)),
      ∀ d ∈ (dispatchWebhooks net hmac whs eventType (serializePayload payload)).1,
        d.body = serializePayload payload ∧
        ∀ v, (getKey d.headers "X-Webhook-Signature" = some v ↔
          ∃ s, d.target.secret = some s ∧ s ≠ "" ∧ v = hmac s d.body))
    ∧ (∀ (net : String → Option Nat) (hmac : String → String → String)
        (w : Webhook) (payload : List (String × JsValue)) (d : Delivery),
      testWebhookSend net hmac w payload = some d →
        d.body = serializePayload payload ∧
        ∀ v, (getKey d.headers "X-Webhook-Signature" = some v ↔
          ∃ s, d.target.secret = some s ∧ s ≠ "" ∧ v = hmac s d.body)) := by
  have hne : ("X-Webhook-Signature" : String) ≠ "Content-Type" := by decide
  constructor
  · intro net hmac whs eventType payload d hd
    unfold dispatchWebhooks at hd
    dsimp only at hd
    split at hd
    · simp at hd
    · simp only [List.mem_map] at hd
      obtain ⟨w, hw, rfl⟩ := hd
      unfold deliverTo
      refine ⟨rfl, fun v => ?_⟩
      dsimp only
      rw [getKey_jsSet_ne _ _ _ _ hne]
      exact getKey_buildWebhookHeaders hmac w.secret (serializePayload payload) v
  · intro net hmac w payload d hd
    unfold testWebhookSend at hd
    split at hd
    · exact absurd hd (by simp)
    · dsimp only at hd
      obtain rfl := (Option.some.injEq _ _).mp hd
      refine ⟨rfl, fun v => ?_⟩
      exact getKey_buildWebhookHeaders hmac w.secret (serializePayload payload) v

/-- Witness for C3 at the test route with a non-empty secret. -/
theorem c3_witness :
    getKey testDeliveryExample.headers "X-Webhook-Signature" =
      some (hmacStub "s3cr3t" testDeliveryExample.body) :=
  (((c3_signature_iff_nonempty_secret).2 netUp hmacStub eventOnlyWebhook [] testDeliveryExample
      (by decide)).2 (hmacStub "s3cr3t" testDeliveryExample.body)).mpr
    ⟨"s3cr3t", rfl, by decide, rfl⟩

/-- C7: a registration attempt against an event at or above capacity is
rejected with "Event is at full capacity", creates no registration (the
state is unchanged) and dispatches zero webhook deliveries. -/
theorem c7_capacity_rejection (net : String → Option Nat)
    (hmac : String → String → String) (st : AppState) (ins : InsertRegistration)
    (now : String) (ev : Event)
    (hev : getEvent st ins.eventId = some ev)
    (hfull : ev.capacity ≤ getEventRegistrationCount st ins.eventId) :
    postRegistration net hmac st ins now =
      (.badRequest "Event is at full capacity", st, []) := by
  unfold postRegistration
  simp only [hev]
  rw [if_pos hfull]

/-- C2: on the creation route, the stored registration's webhookStatus
ends up "sent" exactly when the dispatch succeeded and stays at its
initial "not_sent" otherwise; on the manual re-send route, the status is
set to "sent" exactly on success and the state is untouched on failure,
so a status of "sent" is never reset to "not_sent" by the pipeline. -/
theorem c2_webhook_status_tracking :
    (∀ (net : String → Option Nat) (hmac : String → String → String)
        (st : AppState) (ins : InsertRegistration) (now : String) (ev : Event),
      getEvent st ins.eventId = some ev →
      getEventRegistrationCount st ins.eventId < ev.capacity →
      ins.webhookStatus = none →
      (∀ r ∈ st.registrations, r.id ≠ st.nextRegistrationId) →
      (findReg (postRegistration net hmac st ins now).2.1.registrations
          st.nextRegistrationId).map Registration.webhookStatus =
        some (if ((postRegistration net hmac st ins now).2.2).any (fun d => d.succeeded)
          then "sent" else "not_sent"))
    ∧ (∀ (net : String → Option Nat) (hmac : String → String → String)
        (st : AppState) (id : Nat) (now : String) (reg : Registration) (ev : Event),
      getRegistration st id = some reg →
      getEvent st reg.eventId = some ev →
      ((postRegistrationWebhook net hmac st id now).2.2.any (fun d => d.succeeded) = true →
        getRegistration (postRegistrationWebhook net hmac st id now).2.1 id =
          some { reg with webhookStatus := "sent" })
      ∧ ((postRegistrationWebhook net hmac st id now).2.2.any (fun d => d.succeeded) = false →
        (postRegistrationWebhook net hmac st id now).2.1 = st)
      ∧ (reg.webhookStatus = "sent" →
        (getRegistration (postRegistrationWebhook net hmac st id now).2.1 id).map
          Registration.webhookStatus = some "sent")) := by
  constructor
  · intro net hmac st ins now ev hev hcap hws hfresh
    unfold postRegistration
    simp only [hev]
    rw [if_neg (Nat.not_le.mpr hcap)]
    unfold createRegistration
    dsimp only
    rw [← dispatch_snd_eq_any]
    split
    · unfold setWebhookStatus
      dsimp only
      rw [findReg_setRegStatus, findReg_append_fresh _ _ _ rfl hfresh]
      rfl
    · dsimp only
      rw [findReg_append_fresh _ _ _ rfl hfresh]
      simp [hws, jsOrStr]
  · intro net hmac st id now reg ev hreg hev
    unfold postRegistrationWebhook
    simp only [hreg, hev]
    cases hflag : (dispatchWebhooks net hmac st.webhooks "registration.created"
        (serializePayload (buildManualPayload ev reg now))).2 with
    | true =>
      simp only [hflag, if_true]
      have hfound : getRegistration (setWebhookStatus st id "sent") id =
          some { reg with webhookStatus := "sent" } := by
        unfold getRegistration at hreg
        unfold getRegistration setWebhookStatus
        dsimp only
        rw [findReg_setRegStatus, hreg]
        rfl
      refine ⟨fun _ => hfound, fun hcontra => ?_, fun _ => ?_⟩
      · rw [dispatch_snd_eq_any] at hflag
        rw [hflag] at hcontra
        exact absurd hcontra (by simp)
      · rw [hfound]
        rfl
    | false =>
      rw [if_neg Bool.false_ne_true]
      refine ⟨fun hcontra => ?_, fun _ => rfl, fun hsent => ?_⟩
      · rw [dispatch_snd_eq_any] at hflag
        rw [hflag] at hcontra
        exact absurd hcontra (by simp)
      · rw [hreg]
        simp [hsent]

/-- Witness for C2: a creation over an empty webhook table (all-fail
dispatch, status stays "not_sent") and a manual re-send with one live
subscriber. -/
theorem c2_witness :
    ((findReg (postRegistration netUp hmacStub stEmpty insEmpty "t").2.1.registrations
        1).map Registration.webhookStatus =
      some (if ((postRegistration netUp hmacStub stEmpty insEmpty "t").2.2).any
          (fun d => d.succeeded) then "sent" else "not_sent")) ∧
    (getRegistration (postRegistrationWebhook netUp hmacStub stWithSubscriber 8 "t").2.1 8 =
        some { regPhone with webhookStatus := "sent" }) :=
  ⟨c2_webhook_status_tracking.1 netUp hmacStub stEmpty insEmpty "t" evLaunch
      (by decide) (by decide) rfl (by simp [stEmpty]),
   (c2_webhook_status_tracking.2 netUp hmacStub stWithSubscriber 8 "t" regPhone evLaunch
      (by decide) (by decide)).1 (by decide)⟩

/-- Witness for C7: a third registration against the capacity-2 event
that already holds two. -/
theorem c7_witness :
    postRegistration netUp hmacStub stFull insEmpty "2025-06-02" =
      (.badRequest "Event is at full capacity", stFull, []) :=
  c7_capacity_rejection netUp hmacStub stFull insEmpty "2025-06-02" evLaunch
    (by decide) (by decide)

/-- C8 counterexample: a bare full-name value under the key
`"fullname"`, with no separate first/last fields present, is NOT split
at the first whitespace — the key matches the `"lname"` substring rule
first, so the whole value lands in the last name and the first name
stays empty. -/
theorem c8_counterexample :
    (extractCommonFields [("fullname", JsValue.vStr "Ada Lovelace")]).firstName = "" ∧
      (extractCommonFields [("fullname", JsValue.vStr "Ada Lovelace")]).lastName =
        "Ada Lovelace" := by
  decide

/-- C8 (amended): the scenario payload carries first_name = "Ada" and
email = "ada@x.com"; keys containing first/fname populate the first
name, keys containing last/lname (and not first/fname) populate the
last name, email-containing keys populate the email; a bare name value
under a key lowercasing exactly to "name" is split at the first space
into first and last name; but a key lowercasing to "fullname" is
captured by the "lname" substring rule and its whole value is assigned
to the last name, unsplit. -/
theorem c8_contact_extraction :
    (getKey (buildAutoPayload (some evLaunch) regAda) "first_name" =
        some (JsValue.vStr "Ada") ∧
      getKey (buildAutoPayload (some evLaunch) regAda) "email" =
        some (JsValue.vStr "ada@x.com"))
    ∧ (∀ (k : String) (v : JsValue), k ≠ "eventName" →
        (strIncludes (toLowerStr k) "first" = true ∨
          strIncludes (toLowerStr k) "fname" = true) →
        (extractCommonFields [(k, v)]).firstName = jsToString v)
    ∧ (∀ (k : String) (v : JsValue), k ≠ "eventName" →
        strIncludes (toLowerStr k) "first" = false →
        strIncludes (toLowerStr k) "fname" = false →
        (strIncludes (toLowerStr k) "last" = true ∨
          strIncludes (toLowerStr k) "lname" = true) →
        (extractCommonFields [(k, v)]).lastName = jsToString v)
    ∧ (∀ (k : String) (v : JsValue), k ≠ "eventName" →
        strIncludes (toLowerStr k) "first" = false →
        strIncludes (toLowerStr k) "fname" = false →
        strIncludes (toLowerStr k) "last" = false →
        strIncludes (toLowerStr k) "lname" = false →
        toLowerStr k ≠ "name" → toLowerStr k ≠ "fullname" →
        strIncludes (toLowerStr k) "email" = true →
        (extractCommonFields [(k, v)]).email = jsToString v)
    ∧ (∀ (k : String) (a b : List Char), k ≠ "eventName" →
        toLowerStr k = "name" → ' ' ∉ a →
        (extractCommonFields [(k, JsValue.vStr ⟨a ++ ' ' :: b⟩)]).firstName = ⟨a⟩ ∧
        (extractCommonFields [(k, JsValue.vStr ⟨a ++ ' ' :: b⟩)]).lastName = ⟨b⟩)
    ∧ (∀ (k : String) (v : JsValue), toLowerStr k = "fullname" →
        (extractCommonFields [(k, v)]).lastName = jsToString v ∧
        (extractCommonFields [(k, v)]).firstName = "") := by
  refine ⟨⟨by decide, by decide⟩, ?_, ?_, ?_, ?_, ?_⟩
  · intro k v hne hf
    rcases hf with h | h <;>
      simp [extractCommonFields, commonFieldStep, hne, h]
  · intro k v hne h1 h2 hl
    rcases hl with h | h <;>
      simp [extractCommonFields, commonFieldStep, hne, h1, h2, h]
  · intro k v hne h1 h2 h3 h4 hn hf he
    simp [extractCommonFields, commonFieldStep, hne, h1, h2, h3, h4, hn, hf, he]
  · intro k a b hne hk hsp
    have h1 : strIncludes (toLowerStr k) "first" = false := by rw [hk]; decide
    have h2 : strIncludes (toLowerStr k) "fname" = false := by rw [hk]; decide
    have h3 : strIncludes (toLowerStr k) "last" = false := by rw [hk]; decide
    have h4 : strIncludes (toLowerStr k) "lname" = false := by rw [hk]; decide
    have hpos : 0 < (splitSpace b).length :=
      List.length_pos.mpr (splitSpace_ne_nil b)
    have g1 : strIncludes "name" "first" = false := by decide
    have g2 : strIncludes "name" "fname" = false := by decide
    have g3 : strIncludes "name" "last" = false := by decide
    have g4 : strIncludes "name" "lname" = false := by decide
    simp [extractCommonFields, commonFieldStep, hne, h1, h2, h3, h4, hk,
      g1, g2, g3, g4, jsToString, jsIsString, splitSpace_append a b hsp,
      joinSpace_splitSpace, hpos]
  · intro k v hk
    have hne : k ≠ "eventName" := by
      intro e
      rw [e] at hk
      exact absurd hk (by decide)
    have h1 : strIncludes (toLowerStr k) "first" = false := by rw [hk]; decide
    have h2 : strIncludes (toLowerStr k) "fname" = false := by rw [hk]; decide
    have h4 : strIncludes (toLowerStr k) "lname" = true := by rw [hk]; decide
    constructor <;>
      simp [extractCommonFields, commonFieldStep, hne, h1, h2, h4]

/-- Witness for C8 instantiating every heuristic conjunct concretely. -/
theorem c8_witness :
    (extractCommonFields [("firstName", JsValue.vStr "Ada")]).firstName = "Ada" ∧
    (extractCommonFields [("surname_last", JsValue.vStr "Lovelace")]).lastName = "Lovelace" ∧
    (extractCommonFields [("Email", JsValue.vStr "ada@x.com")]).email = "ada@x.com" ∧
    (extractCommonFields [("Name", JsValue.vStr ⟨"Ada".data ++ ' ' :: "Lovelace".data⟩)]).firstName =
      ⟨"Ada".data⟩ ∧
    (extractCommonFields [("fullName", JsValue.vStr "Ada Lovelace")]).lastName =
      "Ada Lovelace" :=
  ⟨c8_contact_extraction.2.1 "firstName" (JsValue.vStr "Ada") (by decide)
      (Or.inl (by decide)),
   c8_contact_extraction.2.2.1 "surname_last" (JsValue.vStr "Lovelace") (by decide)
      (by decide) (by decide) (Or.inl (by decide)),
   c8_contact_extraction.2.2.2.1 "Email" (JsValue.vStr "ada@x.com") (by decide)
      (by decide) (by decide) (by decide) (by decide) (by decide) (by decide) (by decide),
   (c8_contact_extraction.2.2.2.2.1 "Name" "Ada".data "Lovelace".data (by decide)
      (by decide) (by decide)).1,
   (c8_contact_extraction.2.2.2.2.2 "fullName" (JsValue.vStr "Ada Lovelace")
      (by decide)).1⟩

/-- C9 counterexample: the manual re-trigger payload for a registration
with a Phone form entry binds the snake key but NOT the
`form_`-prefixed debug key that the claim asserts for both dispatches;
the automatic payload does bind it. -/
theorem c9_counterexample :
    ("7a006b3a-6516-4981-a333-e92b98970f29", JsValue.vStr "555-0100") ∈ regPhone.formData ∧
    getKey (buildManualPayload evLaunch regPhone "now")
      "form_7a006b3a-6516-4981-a333-e92b98970f29" = none ∧
    getKey (buildAutoPayload (some evLaunch) regPhone)
      "form_7a006b3a-6516-4981-a333-e92b98970f29" = some (JsValue.vStr "555-0100") := by
  decide

/-- C9 (amended): in the automatic registration-created payload every
form-data entry contributes both its snake_case label key (raw value)
and its `form_`-prefixed debug key (raw value); the manual re-trigger
payload contributes only the snake_case key and never binds any
`form_`-prefixed key.  Overwrite side conditions: no later entry may
write the inspected key, and for a contact label the raw value must be
a string (the explicit contact override then rewrites the same value). -/
theorem c9_payload_form_keys :
    (∀ (evOpt : Option Event) (reg : Registration) (k : String) (v : JsValue)
        (pre post : List (String × JsValue)),
      reg.formData = pre ++ (k, v) :: post →
      (∀ kv ∈ post, ("form_" ++ k) ∉ autoStepKeys kv.1) →
      getKey (buildAutoPayload evOpt reg) ("form_" ++ k) = some v)
    ∧ (∀ (evOpt : Option Event) (reg : Registration) (k : String) (v : JsValue)
        (pre post : List (String × JsValue)),
      reg.formData = pre ++ (k, v) :: post →
      (∀ kv ∈ post, snakeCase (resolveFieldLabel k) ∉ autoStepKeys kv.1) →
      snakeCase (resolveFieldLabel k) ≠ "form_" ++ k →
      (resolveFieldLabel k = "First Name" ∨ resolveFieldLabel k = "Last Name" ∨
        resolveFieldLabel k = "Email" → ∃ s, v = JsValue.vStr s) →
      getKey (buildAutoPayload evOpt reg) (snakeCase (resolveFieldLabel k)) = some v)
    ∧ (∀ (ev : Event) (reg : Registration) (now : String) (k : String) (v : JsValue)
        (pre post : List (String × JsValue)),
      reg.formData = pre ++ (k, v) :: post →
      (∀ kv ∈ post, snakeCase (resolveFieldLabel k) ∉ manualStepKeys kv.1) →
      (resolveFieldLabel k = "First Name" ∨ resolveFieldLabel k = "Last Name" ∨
        resolveFieldLabel k = "Email" → ∃ s, v = JsValue.vStr s) →
      getKey (buildManualPayload ev reg now) (snakeCase (resolveFieldLabel k)) = some v)
    ∧ (∀ (ev : Event) (reg : Registration) (now : String) (k : String),
      (∀ kv ∈ reg.formData, ("form_" ++ k) ∉ manualStepKeys kv.1) →
      getKey (buildManualPayload ev reg now) ("form_" ++ k) = none) := by
  refine ⟨?_, ?_, ?_, ?_⟩
  · intro evOpt reg k v pre post hsplit hpost
    unfold buildAutoPayload
    rw [hsplit, List.foldl_append, List.foldl_cons,
      getKey_foldl_auto_not_touched post _ _ hpost]
    exact getKey_autoPayloadStep_form _ (k, v)
  · intro evOpt reg k v pre post hsplit hpost hform hval
    unfold buildAutoPayload
    rw [hsplit, List.foldl_append, List.foldl_cons,
      getKey_foldl_auto_not_touched post _ _ hpost]
    exact getKey_autoPayloadStep_snake _ (k, v) hform hval
  · intro ev reg now k v pre post hsplit hpost hval
    unfold buildManualPayload
    rw [hsplit, List.foldl_append, List.foldl_cons,
      getKey_foldl_manual_not_touched post _ _ hpost]
    exact getKey_manualPayloadStep_snake _ (k, v) hval
  · intro ev reg now k h
    unfold buildManualPayload
    rw [getKey_foldl_manual_not_touched _ _ _ h]
    exact getKey_manualBasePayload_form ev reg now k

/-- Witness for C9 on the Phone registration. -/
theorem c9_witness :
    getKey (buildAutoPayload (some evLaunch) regPhone)
      ("form_" ++ "7a006b3a-6516-4981-a333-e92b98970f29") =
        some (JsValue.vStr "555-0100") ∧
    getKey (buildManualPayload evLaunch regPhone "now")
      ("form_" ++ "7a006b3a-6516-4981-a333-e92b98970f29") = none :=
  ⟨c9_payload_form_keys.1 (some evLaunch) regPhone
      "7a006b3a-6516-4981-a333-e92b98970f29" (JsValue.vStr "555-0100") [] []
      (by decide) (by simp),
   c9_payload_form_keys.2.2.2 evLaunch regPhone "now"
      "7a006b3a-6516-4981-a333-e92b98970f29" (by decide)⟩

/-- C10 counterexample: with the event record absent, the normalizer
defaults `event_title` to "Unknown Event", not to the empty string the
claim asserts for all event descriptive fields. -/
theorem c10_counterexample :
    getKey (buildAutoPayload none regEmptyForm) "event_title" =
        some (JsValue.vStr "Unknown Event") ∧
      JsValue.vStr "Unknown Event" ≠ JsValue.vStr "" := by
  decide

/-- C10 (amended): when the associated event record is absent the
normalizer still produces a payload; `event_description`, `event_date`,
`event_location`, `event_start_time` and `event_end_time` default to the
empty string and `event_capacity` to zero, while `event_title` defaults
to "Unknown Event".  (Side condition: no form-data entry writes an
event field key.) -/
theorem c10_absent_event_defaults (reg : Registration)
    (h : ∀ kv ∈ reg.formData, ∀ K ∈ eventFieldKeys, K ∉ autoStepKeys kv.1) :
    getKey (buildAutoPayload none reg) "event_title" = some (JsValue.vStr "Unknown Event") ∧
    getKey (buildAutoPayload none reg) "event_description" = some (JsValue.vStr "") ∧
    getKey (buildAutoPayload none reg) "event_date" = some (JsValue.vStr "") ∧
    getKey (buildAutoPayload none reg) "event_location" = some (JsValue.vStr "") ∧
    getKey (buildAutoPayload none reg) "event_start_time" = some (JsValue.vStr "") ∧
    getKey (buildAutoPayload none reg) "event_end_time" = some (JsValue.vStr "") ∧
    getKey (buildAutoPayload none reg) "event_capacity" = some (JsValue.vNum 0) := by
  have hbase : ∀ K ∈ eventFieldKeys,
      getKey (buildAutoPayload none reg) K = getKey (autoBasePayload none reg) K := by
    intro K hK
    unfold buildAutoPayload
    exact getKey_foldl_auto_not_touched _ _ _ (fun kv hkv => h kv hkv K hK)
  refine ⟨?_, ?_, ?_, ?_, ?_, ?_, ?_⟩ <;>
    · rw [hbase _ (by decide)]
      simp [autoBasePayload, getKey, jsOrStr]

/-- Witness for C10 at the empty-form registration. -/
theorem c10_witness :
    getKey (buildAutoPayload none regEmptyForm) "event_title" =
        some (JsValue.vStr "Unknown Event") ∧
      getKey (buildAutoPayload none regEmptyForm) "event_capacity" =
        some (JsValue.vNum 0) :=
  ⟨(c10_absent_event_defaults regEmptyForm (by simp [regEmptyForm, mkReg])).1,
   (c10_absent_event_defaults regEmptyForm (by simp [regEmptyForm, mkReg])).2.2.2.2.2.2⟩

end EventTrackPro
